import Mathlib

/-!
Verification development for the FinCast-fts data-preparation scripts
(`prepare_inference_data.py` and `explore_data.py`).

The scripts are shallowly embedded as follows.

* Python strings are `List Char`; `str.strip`, `str.endswith`, `str.replace`,
  `str.upper`, `str.split(".")[0]` and the regex `re.sub(r"\D", "", s)`
  (which keeps only digit characters) are modelled by executable functions
  below.  `re.sub` uses Python's `\d`, modelled here as `Char.isDigit`.
* A row of the two-column (`date`, `Close`) frame is `RawRow`: `date` is the
  result of `pd.to_datetime(..., errors="coerce")` (so `none` is `NaT`,
  `some t` a timestamp, encoded as an integer), `close` is the result of
  `pd.to_numeric`-style coercion (`none` is `NaN`).  The numeric value of a
  close price is encoded as an integer; none of the script's logic inspects
  it beyond null-ness and copying.
* `df.dropna(subset=["date", "Close"])` is `dropna`,
  `df.sort_values("date")` is `sortByDate` (a merge sort on the parsed
  date, missing dates last per `na_position="last"`; pandas' default
  `kind="quicksort"` is unstable, so where the order of rows with equal
  dates matters, `IsSortResult` — any sorted permutation — is used
  instead), and `df.drop_duplicates(subset=["date"],
  keep="last")` is `dropDupKeepLast` (keep the last occurrence of each
  `date` key, in order).  `df.tail(n)` guarded by `if args.tail and
  args.tail > 0` is `applyTail`.
* `pd.read_parquet` plus the column normalisation of
  `_load_parquet_series` is abstracted to an `Option (List RawRow)`
  argument: `none` means the file is missing or cannot be read (the
  function raises), `some rows` gives the coerced (`date`, `Close`) pairs;
  the explicit clean-up of lines 35-38 is `cleanSeries`.
* The AkShare fetch `_fetch_today_1m_from_akshare` is abstracted to an
  `Except Unit (List RawRow)` argument: `error` means the fetch raised,
  `ok rows` gives the coerced rows before the function's own clean-up
  (lines 76-77), which is again `cleanSeries`; the `None` / empty /
  non-frame early returns are the `ok []` case.
* `main` of `prepare_inference_data.py` is `mainRun`; its prints are
  recorded as a list of `MainMsg` events, its exit code and the rows
  written by `to_csv` (or `none` when the script returns before writing)
  are the other fields of `RunResult`.  `_ensure_datetime` applied to the
  merged frame's already-datetime `date` column at line 148 is the
  identity, per `ensureDatetime`'s first branch.
* The module body of `explore_data.py` is `exploreRun`, with prints
  recorded as `ExploreMsg` events and the parquet file it reads (if any)
  returned; the script performs no writes, and the model has no write
  effect.
-/

/-- A Python string, as its list of characters. -/
abbrev PyStr := List Char

/-- Python `str.strip()`: remove leading and trailing whitespace. -/
def pyStrip (s : PyStr) : PyStr :=
  ((s.dropWhile Char.isWhitespace).reverse.dropWhile Char.isWhitespace).reverse

/-- Python `s.endswith(pat)`. -/
def pyEndsWith (s pat : PyStr) : Bool :=
  pat.isSuffixOf s

/-- Python `str.upper()` (modelled per character). -/
def pyUpper (s : PyStr) : PyStr :=
  s.map Char.toUpper

/-- Worker for `pyReplace`, structurally recursive on a fuel bound: every
step consumes at least one character, so `fuel = s.length` never runs out
on a non-empty list. -/
def pyReplaceAux (pat rep : PyStr) : Nat → PyStr → PyStr
  | 0, s => s
  | fuel + 1, s =>
    match s with
    | [] => []
    | c :: rest =>
      if pat.isPrefixOf (c :: rest) ∧ pat ≠ [] then
        rep ++ pyReplaceAux pat rep fuel ((c :: rest).drop pat.length)
      else
        c :: pyReplaceAux pat rep fuel rest

/-- Python `s.replace(pat, rep)`: replace non-overlapping occurrences of
`pat` left to right.  (Never called with an empty `pat` in this code.) -/
def pyReplace (pat rep s : PyStr) : PyStr :=
  pyReplaceAux pat rep s.length s

/-- Python `s.split(".")[0]`: the characters before the first dot. -/
def pySplitDotHead (s : PyStr) : PyStr :=
  s.takeWhile (fun c => c ≠ '.')

/-- The literal `".parquet"`. -/
def parquetExtChars : PyStr := ".parquet".toList

/-- The literal `".PARQUET"`. -/
def parquetUpperChars : PyStr := ".PARQUET".toList

/-- Lines 110-112 of `prepare_inference_data.py`: strip the `--symbol`
argument, append `".parquet"` unless it already ends with it, then replace
every occurrence of `".PARQUET"` with `".parquet"`. -/
def parquetName (symbolArg : PyStr) : PyStr :=
  let symbol := pyStrip symbolArg
  let name := if pyEndsWith symbol parquetExtChars then symbol
              else symbol ++ parquetExtChars
  pyReplace parquetUpperChars parquetExtChars name

/-- Model of `os.path.join(dir, name)` for a relative `name`: directory, separator,
file name. -/
def osPathJoin (dir name : PyStr) : PyStr :=
  dir ++ '/' :: name

/-- Line 113 of `prepare_inference_data.py`: the parquet path that is read. -/
def parquetPath (dataDir symbolArg : PyStr) : PyStr :=
  osPathJoin dataDir (parquetName symbolArg)

/-- A row of the two-column (`date`, `Close`) frame.  `date` is the result
of `pd.to_datetime(..., errors="coerce")` (`none` = `NaT`); `close` is the
(possibly missing) close price. -/
structure RawRow where
  date : Option Int
  close : Option Int
deriving DecidableEq

/-- The predicate of `dropna(subset=["date", "Close"])`: both fields
present. -/
def rowKeep (r : RawRow) : Bool :=
  r.date.isSome && r.close.isSome

/-- Model of `df.dropna(subset=["date", "Close"])`. -/
def dropna (l : List RawRow) : List RawRow :=
  l.filter rowKeep

/-- The comparison used by `df.sort_values("date")`: ascending on the
parsed date, missing dates (`NaT`) last (pandas `na_position="last"`). -/
def rowLE (a b : RawRow) : Bool :=
  match a.date, b.date with
  | some x, some y => decide (x ≤ y)
  | some _, none => true
  | none, none => true
  | none, some _ => false

/-- Model of `df.sort_values("date")`: a merge sort by `rowLE`, one
admissible outcome of pandas' sort.  The default `kind="quicksort"`
guarantees only a sorted permutation, with an implementation-defined order
on rows with equal dates; `IsSortResult` below characterises the full set
of admissible outcomes and is used where the tie order matters. -/
def sortByDate (l : List RawRow) : List RawRow :=
  l.mergeSort rowLE

/-- What `df.sort_values("date")` (default `kind="quicksort"`, an unstable
introsort) guarantees about its result: a permutation of the input that is
pairwise `rowLE`-sorted.  The relative order of rows with equal dates is
implementation-defined, so every sorted permutation is admissible. -/
abbrev IsSortResult (l lres : List RawRow) : Prop :=
  lres.Perm l ∧ lres.Pairwise (fun a b => rowLE a b = true)

/-- Model of `df.drop_duplicates(subset=["date"], keep="last")`: keep a row exactly
when no later row has the same `date` key. -/
def dropDupKeepLast : List RawRow → List RawRow
  | [] => []
  | r :: rs =>
    if rs.any (fun x => decide (x.date = r.date)) then dropDupKeepLast rs
    else r :: dropDupKeepLast rs

/-- The clean-up idiom `out.dropna(subset=["date", "Close"])
.sort_values("date").drop_duplicates(subset=["date"], keep="last")` used at
lines 35-37, 76-77 and 148-150 of `prepare_inference_data.py`. -/
def cleanSeries (l : List RawRow) : List RawRow :=
  dropDupKeepLast (sortByDate (dropna l))

/-- Lines 152-153: `if args.tail and args.tail > 0: merged =
merged.tail(args.tail)` — keep the last `n` rows when `n` is positive,
otherwise leave the frame unchanged. -/
def applyTail (n : Int) (l : List RawRow) : List RawRow :=
  if 0 < n then l.drop (l.length - n.toNat) else l

/-- A pandas series for `_ensure_datetime`: either of datetime dtype (with
parsed values, `none` = `NaT`) or of some other dtype with raw values of
type `α`. -/
inductive PdSeries (α : Type) where
  | dt (vals : List (Option Int))
  | raw (vals : List α)
deriving DecidableEq

/-- Function `_ensure_datetime` (lines 10-13): return a datetime series unchanged,
otherwise apply `pd.to_datetime(s, errors="coerce")`, modelled by mapping
the per-value parse `parse` (failures become `none` = `NaT`) and yielding a
datetime-dtype series. -/
def ensureDatetime {α : Type} (parse : α → Option Int) :
    PdSeries α → PdSeries α
  | .dt v => .dt v
  | .raw v => .dt (v.map parse)

/-- Function `_symbol_to_akshare_6` (lines 81-91): strip and upper-case the symbol,
take the part before the first dot if there is one, and keep only the
digit characters (`re.sub(r"\D", "", s)`). -/
def symbolToAkshare6 (symbol : PyStr) : PyStr :=
  let s := pyUpper (pyStrip symbol)
  let s2 := if ('.' ∈ s) then pySplitDotHead s else s
  s2.filter Char.isDigit

/-- Function `_load_parquet_series`: raises when the parquet file is missing or
unreadable (`none`); otherwise extracts the (`date`, `Close`) rows and
cleans them (lines 35-38). -/
def loadParquetSeries (file : Option (List RawRow)) :
    Except Unit (List RawRow) :=
  match file with
  | none => .error ()
  | some rows => .ok (cleanSeries rows)

/-- The print events of `main` in `prepare_inference_data.py`. -/
inductive MainMsg where
  | readingParquet
  | errorReadingParquet
  | warnNoNumericCode
  | fetchingAkshare
  | akshareRows (n : Nat)
  | warnNoRowsToday
  | warnFetchFailed
  | savingRows (n : Nat)
  | doneMsg
deriving DecidableEq

/-- Outcome of a run of `main`: exit code, rows written to the output CSV
(`none` when the script returns before writing), and print events. -/
structure RunResult where
  exitCode : Int
  output : Option (List RawRow)
  msgs : List MainMsg
deriving DecidableEq

/-- The command-line arguments of `prepare_inference_data.py` that the
pipeline logic depends on. -/
structure MainArgs where
  symbol : PyStr
  tailN : Int
  useAkshare : Bool

/-- Lines 129-146 of `main`: the optional AkShare merge.  When
`--use-akshare` is given, derive the six-digit code (skipping the merge
with a warning when no digits remain), treat a raised fetch as a non-fatal
warning, and concatenate today's cleaned rows to the parquet frame only
when they are non-empty.  Returns the merged frame and the print events. -/
def akMergeStep (args : MainArgs) (localDf : List RawRow)
    (fetch : Except Unit (List RawRow)) : List RawRow × List MainMsg :=
  if args.useAkshare then
    if symbolToAkshare6 args.symbol = [] then
      (localDf, [MainMsg.warnNoNumericCode])
    else
      match fetch with
      | .error _ => (localDf, [MainMsg.fetchingAkshare, MainMsg.warnFetchFailed])
      | .ok todayRaw =>
        let todayDf := cleanSeries todayRaw
        if 0 < todayDf.length then
          (localDf ++ todayDf,
            [MainMsg.fetchingAkshare, MainMsg.akshareRows todayDf.length])
        else
          (localDf,
            [MainMsg.fetchingAkshare, MainMsg.akshareRows 0,
              MainMsg.warnNoRowsToday])
  else (localDf, [])

/-- Function `main` of `prepare_inference_data.py` (lines 94-159), over the
abstracted parquet read `file` and AkShare fetch `fetch`.  On a read
failure it prints the error and returns 1 without writing.  Otherwise the
optional AkShare merge `akMergeStep` runs, the merged frame is re-cleaned
(lines 148-150; `_ensure_datetime` is the identity on the already-datetime
column), truncated by `applyTail`, written out, and 0 is returned. -/
def mainRun (args : MainArgs) (file : Option (List RawRow))
    (fetch : Except Unit (List RawRow)) : RunResult :=
  match loadParquetSeries file with
  | .error _ => ⟨1, none, [.readingParquet, .errorReadingParquet]⟩
  | .ok localDf =>
    let step := akMergeStep args localDf fetch
    let merged := applyTail args.tailN (cleanSeries step.1)
    ⟨0, some merged,
      MainMsg.readingParquet :: step.2
        ++ [MainMsg.savingRows merged.length, MainMsg.doneMsg]⟩

/-- The columns of a parquet file opened by `explore_data.py`. -/
structure ExploreTable where
  columns : List PyStr
deriving DecidableEq

/-- The print events of `explore_data.py`. -/
inductive ExploreMsg where
  | foundFiles (n : Nat)
  | noParquetFound
  | readingFirst (f : PyStr)
  | printedColumns (cols : List PyStr)
  | printedTailRows
  | printedIndexName
  | readFailed
deriving DecidableEq

/-- Outcome of a run of `explore_data.py`: print events and the file it
read (`none` when no file was read). -/
structure ExploreResult where
  msgs : List ExploreMsg
  readFile : Option PyStr
deriving DecidableEq

/-- The module body of `explore_data.py` (lines 6-31), over the directory
listing `files` and the abstracted `pd.read_parquet` outcome `readRes`
(`error` when the read or the pandas import raises).  It prints the file
count; when the listing is non-empty it filters for names ending in
`".parquet"`, prints a message and reads nothing if none remain, and
otherwise reads the first one, printing its columns, last rows and index
name on success or the error on failure.  Nothing is persisted. -/
def exploreRun (files : List PyStr) (readRes : Except Unit ExploreTable) :
    ExploreResult :=
  let found := [ExploreMsg.foundFiles files.length]
  if files.isEmpty then ⟨found, none⟩
  else
    match files.filter (fun f => pyEndsWith f parquetExtChars) with
    | [] => ⟨found ++ [ExploreMsg.noParquetFound], none⟩
    | f :: _ =>
      match readRes with
      | .ok t =>
        ⟨found ++ [ExploreMsg.readingFirst f, ExploreMsg.printedColumns t.columns,
          ExploreMsg.printedTailRows, ExploreMsg.printedIndexName], some f⟩
      | .error _ =>
        ⟨found ++ [ExploreMsg.readingFirst f, ExploreMsg.readFailed], some f⟩

/-- The file-name computation as claim C6 words it: `S + ".parquet"`, with
no extra suffix appended when `S` already ends in `".parquet"`, and an
uppercase `".PARQUET"` extension case-normalised to `".parquet"`.  This
definition follows the claim's words, to be compared with `parquetName`,
which follows the source. -/
def parquetNameClaimed (symbolArg : PyStr) : PyStr :=
  if pyEndsWith symbolArg parquetExtChars then symbolArg
  else if pyEndsWith symbolArg parquetUpperChars then
    symbolArg.take (symbolArg.length - parquetUpperChars.length) ++ parquetExtChars
  else symbolArg ++ parquetExtChars

/-- Concrete inputs used by the witness theorems. -/
def sampleSymbol : PyStr := "600869.SH".toList

def sampleUpperSymbol : PyStr := "600869.PARQUET".toList

def sampleSpacedSymbol : PyStr := " 600869 ".toList

def sampleNoDigitSymbol : PyStr := "ABC.SZ".toList

def sampleTxtFile : PyStr := "notes.txt".toList

def sampleParquetFile : PyStr := "600869.SH.parquet".toList

def sampleRows : List RawRow :=
  [⟨some 1, some 10⟩, ⟨some 2, some 20⟩, ⟨some 3, some 30⟩]

def sampleFetchRows : List RawRow := [⟨some 3, some 33⟩, ⟨some 4, some 40⟩]

def sampleMergedSorted : List RawRow := sampleRows ++ sampleFetchRows

def localRow : RawRow := ⟨some 3, some 30⟩

def fetchedRow : RawRow := ⟨some 3, some 33⟩

def sampleDupLocal : List RawRow := [localRow]

def sampleDupFetched : List RawRow := [fetchedRow]

def sampleArgs : MainArgs := ⟨sampleSymbol, 2000, false⟩

def sampleArgsAk : MainArgs := ⟨sampleSymbol, 2000, true⟩

def sampleArgsNoDigit : MainArgs := ⟨sampleNoDigitSymbol, 2000, true⟩

def fetchErr : Except Unit (List RawRow) := .error ()

def sampleTable : ExploreTable := ⟨[sampleSymbol]⟩

def sampleDataDir : PyStr := "data".toList

/-! ### Helper lemmas about the pipeline operations -/

theorem dropDupKeepLast_sublist :
    ∀ l : List RawRow, (dropDupKeepLast l).Sublist l
  | [] => List.Sublist.refl _
  | r :: rs => by
    rw [dropDupKeepLast]
    split
    · exact (dropDupKeepLast_sublist rs).cons r
    · exact (dropDupKeepLast_sublist rs).cons₂ r

theorem mem_of_mem_dropDupKeepLast {a : RawRow} {l : List RawRow}
    (h : a ∈ dropDupKeepLast l) : a ∈ l :=
  (dropDupKeepLast_sublist l).subset h

theorem dates_nodup_dropDupKeepLast :
    ∀ l : List RawRow, ((dropDupKeepLast l).map RawRow.date).Nodup
  | [] => List.nodup_nil
  | r :: rs => by
    rw [dropDupKeepLast]
    split
    · exact dates_nodup_dropDupKeepLast rs
    · rename_i hany
      simp only [List.any_eq_true, decide_eq_true_eq, not_exists, not_and] at hany
      refine List.nodup_cons.mpr ⟨?_, dates_nodup_dropDupKeepLast rs⟩
      simp only [List.mem_map, not_exists, not_and]
      intro x hx hdate
      exact hany x (mem_of_mem_dropDupKeepLast hx) hdate

theorem exists_date_dropDupKeepLast :
    ∀ {l : List RawRow} {a : RawRow}, a ∈ l →
      ∃ b ∈ dropDupKeepLast l, b.date = a.date := by
  intro l
  induction l with
  | nil => intro a h; exact absurd h (List.not_mem_nil a)
  | cons r rs ih =>
    intro a h
    rw [dropDupKeepLast]
    rcases List.mem_cons.mp h with rfl | hmem
    · split
      · rename_i hany
        simp only [List.any_eq_true, decide_eq_true_eq] at hany
        obtain ⟨x, hx, hxd⟩ := hany
        obtain ⟨b, hb, hbd⟩ := ih hx
        exact ⟨b, hb, hbd.trans hxd⟩
      · exact ⟨a, List.mem_cons_self _ _, rfl⟩
    · obtain ⟨b, hb, hbd⟩ := ih hmem
      split
      · exact ⟨b, hb, hbd⟩
      · exact ⟨b, List.mem_cons_of_mem _ hb, hbd⟩

theorem rowLE_trans : ∀ a b c : RawRow, rowLE a b = true →
    rowLE b c = true → rowLE a c = true := by
  rintro ⟨da, ca⟩ ⟨db, cb⟩ ⟨dc, cc⟩ hab hbc
  cases da <;> cases db <;> cases dc <;>
    simp only [rowLE, decide_eq_true_eq, Bool.false_eq_true] at hab hbc ⊢ <;>
    omega

theorem rowLE_total : ∀ a b : RawRow, (rowLE a b || rowLE b a) = true := by
  rintro ⟨da, ca⟩ ⟨db, cb⟩
  cases da <;> cases db <;> simp [rowLE] <;> omega

theorem sortByDate_perm (l : List RawRow) : (sortByDate l).Perm l :=
  List.mergeSort_perm l rowLE

theorem sortByDate_sorted (l : List RawRow) :
    (sortByDate l).Pairwise (fun a b => rowLE a b = true) :=
  List.sorted_mergeSort rowLE_trans rowLE_total l

theorem mem_cleanSeries_keep {r : RawRow} {l : List RawRow}
    (h : r ∈ cleanSeries l) : rowKeep r = true := by
  have h1 : r ∈ sortByDate (dropna l) := mem_of_mem_dropDupKeepLast h
  have h2 : r ∈ dropna l := (sortByDate_perm _).mem_iff.mp h1
  exact List.of_mem_filter h2

theorem cleanSeries_dates_nodup (l : List RawRow) :
    ((cleanSeries l).map RawRow.date).Nodup :=
  dates_nodup_dropDupKeepLast _

theorem cleanSeries_nodup (l : List RawRow) : (cleanSeries l).Nodup :=
  List.Nodup.of_map RawRow.date (cleanSeries_dates_nodup l)

theorem cleanSeries_sorted (l : List RawRow) :
    (cleanSeries l).Pairwise (fun a b => rowLE a b = true) :=
  List.Pairwise.sublist (dropDupKeepLast_sublist _) (sortByDate_sorted (dropna l))

theorem dropna_eq_self_of_keep {l : List RawRow}
    (h : ∀ r ∈ l, rowKeep r = true) : dropna l = l :=
  List.filter_eq_self.mpr h

theorem applyTail_sublist (n : Int) (l : List RawRow) :
    (applyTail n l).Sublist l := by
  unfold applyTail
  split
  · exact List.drop_sublist _ _
  · exact List.Sublist.refl _

theorem pyReplaceAux_eq_self (pat rep : PyStr) :
    ∀ (fuel : Nat) (s : PyStr), ¬ List.IsInfix pat s →
      pyReplaceAux pat rep fuel s = s := by
  intro fuel
  induction fuel with
  | zero => intro s _; rfl
  | succ n ih =>
    intro s h
    cases s with
    | nil => rfl
    | cons c rest =>
      rw [pyReplaceAux, if_neg]
      · rw [ih rest (fun hinf => h (List.infix_cons hinf))]
      · rintro ⟨hpre, -⟩
        have hpre2 : pat <+: c :: rest := List.isPrefixOf_iff_prefix.mp hpre
        exact h hpre2.isInfix

theorem pyReplace_eq_self {pat rep s : PyStr} (h : ¬ List.IsInfix pat s) :
    pyReplace pat rep s = s :=
  pyReplaceAux_eq_self pat rep s.length s h

theorem cleanSeries_eval {l : List RawRow} (h1 : dropna l = l)
    (h2 : l.Pairwise (fun a b => rowLE a b = true))
    (h3 : dropDupKeepLast l = l) : cleanSeries l = l := by
  unfold cleanSeries sortByDate
  rw [h1, List.mergeSort_of_sorted h2, h3]

theorem cleanSeries_sample : cleanSeries sampleRows = sampleRows :=
  cleanSeries_eval (by decide) (by decide) (by decide)

theorem mainRun_sample_output :
    (mainRun sampleArgs (some sampleRows) fetchErr).output = some sampleRows := by
  show some (applyTail (2000 : Int) (cleanSeries (cleanSeries sampleRows))) =
    some sampleRows
  rw [cleanSeries_sample, cleanSeries_sample]
  decide

/-! ### The claims -/

/-- C9: `_ensure_datetime` is idempotent — applying it twice yields the
same series as applying it once — and a series that is already of datetime
dtype is returned unchanged. -/
theorem claim_C9_ensureDatetime_idempotent {α : Type} (parse : α → Option Int)
    (s : PdSeries α) :
    ensureDatetime parse (ensureDatetime parse s) = ensureDatetime parse s ∧
      ∀ v : List (Option Int),
        ensureDatetime parse (PdSeries.dt v) = PdSeries.dt v := by
  refine ⟨?_, fun v => rfl⟩
  cases s <;> rfl

/-- C3 counterexample: the claim quantifies over every integer `N`, but
with `--tail 0` the truncation step is skipped (`if args.tail and
args.tail > 0` is false), so a three-row frame keeps all three rows even
though `min(0, 3) = 0`. -/
theorem claim_C3_cex :
    applyTail 0 sampleRows = sampleRows ∧
      ((applyTail 0 sampleRows).length : Int) ≠ min 0 3 := by
  decide

/-- C3 (amended): for every positive integer `N` passed as `--tail` and
every merged dataset with total row count `T`, the tail truncation leaves
exactly `min(N, T)` rows, and the rows kept are the last ones (a suffix of
the frame, hence the largest dates once sorted); for `N ≤ 0` the
truncation step is skipped. -/
theorem claim_C3_tail_truncation (n : Int) (l : List RawRow) (h : 0 < n) :
    (applyTail n l).length = min n.toNat l.length ∧
      applyTail n l = l.drop (l.length - n.toNat) ∧
      (applyTail n l).IsSuffix l := by
  unfold applyTail
  rw [if_pos h]
  refine ⟨?_, rfl, List.drop_suffix _ _⟩
  rw [List.length_drop]
  omega

theorem claim_C3_witness :
    (0 : Int) < 2 ∧
      ((applyTail 2 sampleRows).length = min (Int.toNat 2) sampleRows.length ∧
        applyTail 2 sampleRows =
          sampleRows.drop (sampleRows.length - Int.toNat 2) ∧
        (applyTail 2 sampleRows).IsSuffix sampleRows) :=
  ⟨by decide, claim_C3_tail_truncation 2 sampleRows (by decide)⟩

/-- C4: a missing or unreadable source parquet makes the run exit with
code 1 and write no output file, while a run with a readable source exits
with code 0 and writes the CSV. -/
theorem claim_C4_exit_codes (args : MainArgs) (rows : List RawRow)
    (fetch : Except Unit (List RawRow)) :
    (mainRun args none fetch).exitCode = 1 ∧
      (mainRun args none fetch).output = none ∧
      (mainRun args (some rows) fetch).exitCode = 0 ∧
      (mainRun args (some rows) fetch).output ≠ none := by
  refine ⟨rfl, rfl, rfl, ?_⟩
  simp [mainRun, loadParquetSeries]

/-- C2: for every input dataset, the rows written to the output CSV are
sorted in ascending order by their date value (`rowLE`). -/
theorem claim_C2_output_sorted (args : MainArgs) (file : Option (List RawRow))
    (fetch : Except Unit (List RawRow)) (out : List RawRow)
    (h : (mainRun args file fetch).output = some out) :
    out.Pairwise (fun a b => rowLE a b = true) := by
  cases file with
  | none => simp [mainRun, loadParquetSeries] at h
  | some rows =>
    have h2 : some (applyTail args.tailN
        (cleanSeries (akMergeStep args (cleanSeries rows) fetch).1)) = some out := h
    injection h2 with h3
    subst h3
    exact List.Pairwise.sublist (applyTail_sublist _ _) (cleanSeries_sorted _)

theorem claim_C2_witness :
    (mainRun sampleArgs (some sampleRows) fetchErr).output = some sampleRows ∧
      sampleRows.Pairwise (fun a b => rowLE a b = true) :=
  ⟨mainRun_sample_output,
    claim_C2_output_sorted sampleArgs (some sampleRows) fetchErr sampleRows
      mainRun_sample_output⟩

/-- C8: every row in the final output table has a non-null, successfully
parsed datetime in `date` and a non-null `Close` value — rows where either
is missing are dropped by `dropna` before the CSV is written. -/
theorem claim_C8_output_non_null (args : MainArgs) (rows : List RawRow)
    (fetch : Except Unit (List RawRow)) (out : List RawRow)
    (h : (mainRun args (some rows) fetch).output = some out) :
    ∀ r ∈ out, r.date.isSome = true ∧ r.close.isSome = true := by
  have h2 : some (applyTail args.tailN
      (cleanSeries (akMergeStep args (cleanSeries rows) fetch).1)) = some out := h
  injection h2 with h3
  subst h3
  intro r hr
  have hk : rowKeep r = true :=
    mem_cleanSeries_keep ((applyTail_sublist _ _).subset hr)
  simpa [rowKeep, Bool.and_eq_true] using hk

theorem claim_C8_witness :
    (mainRun sampleArgs (some sampleRows) fetchErr).output = some sampleRows ∧
      ∀ r ∈ sampleRows, r.date.isSome = true ∧ r.close.isSome = true :=
  ⟨mainRun_sample_output,
    claim_C8_output_non_null sampleArgs sampleRows fetchErr sampleRows
      mainRun_sample_output⟩

/-- C5: when `--use-akshare` is given (and a numeric code can be derived)
and the network fetch raises, the failure is non-fatal: a warning is
printed, the pipeline continues with the parquet-derived data alone (the
output CSV equals that of a run without `--use-akshare`), the CSV is
written, and the exit code is 0. -/
theorem claim_C5_fetch_failure_non_fatal (args : MainArgs)
    (rows : List RawRow) (h1 : args.useAkshare = true)
    (h2 : symbolToAkshare6 args.symbol ≠ []) :
    (mainRun args (some rows) (Except.error ())).exitCode = 0 ∧
      (mainRun args (some rows) (Except.error ())).output ≠ none ∧
      (mainRun args (some rows) (Except.error ())).output =
        (mainRun { args with useAkshare := false } (some rows)
          (Except.error ())).output ∧
      MainMsg.warnFetchFailed ∈
        (mainRun args (some rows) (Except.error ())).msgs := by
  simp [mainRun, loadParquetSeries, akMergeStep, h1, h2]

theorem claim_C5_witness :
    (sampleArgsAk.useAkshare = true ∧
        symbolToAkshare6 sampleArgsAk.symbol ≠ []) ∧
      ((mainRun sampleArgsAk (some sampleRows) (Except.error ())).exitCode = 0 ∧
        (mainRun sampleArgsAk (some sampleRows) (Except.error ())).output ≠
          none ∧
        (mainRun sampleArgsAk (some sampleRows) (Except.error ())).output =
          (mainRun { sampleArgsAk with useAkshare := false } (some sampleRows)
            (Except.error ())).output ∧
        MainMsg.warnFetchFailed ∈
          (mainRun sampleArgsAk (some sampleRows) (Except.error ())).msgs) :=
  ⟨⟨rfl, by decide⟩,
    claim_C5_fetch_failure_non_fatal sampleArgsAk sampleRows rfl (by decide)⟩

/-- C10: `_symbol_to_akshare_6` returns exactly the digit characters of
the portion of the trimmed, upper-cased symbol before the first dot, in
order; and when this result is empty, `main` skips the AkShare merge with
a warning and the run still completes from the parquet data alone. -/
theorem claim_C10_symbol_digits (s : PyStr) (args : MainArgs)
    (rows : List RawRow) (fetch : Except Unit (List RawRow))
    (h1 : args.useAkshare = true) (h2 : symbolToAkshare6 args.symbol = []) :
    symbolToAkshare6 s =
      (pySplitDotHead (pyUpper (pyStrip s))).filter Char.isDigit ∧
      (mainRun args (some rows) fetch).exitCode = 0 ∧
      (mainRun args (some rows) fetch).output =
        (mainRun { args with useAkshare := false } (some rows) fetch).output ∧
      MainMsg.warnNoNumericCode ∈ (mainRun args (some rows) fetch).msgs := by
  refine ⟨?_, ?_⟩
  · simp only [symbolToAkshare6, pySplitDotHead]
    by_cases hdot : '.' ∈ pyUpper (pyStrip s)
    · rw [if_pos hdot]
    · rw [if_neg hdot, List.takeWhile_eq_self_iff.mpr ?_]
      intro x hx
      rw [decide_eq_true_eq]
      rintro rfl
      exact hdot hx
  · simp [mainRun, loadParquetSeries, akMergeStep, h1, h2]

theorem claim_C10_witness :
    (sampleArgsNoDigit.useAkshare = true ∧
        symbolToAkshare6 sampleArgsNoDigit.symbol = []) ∧
      (symbolToAkshare6 sampleSymbol =
          (pySplitDotHead (pyUpper (pyStrip sampleSymbol))).filter
            Char.isDigit ∧
        (mainRun sampleArgsNoDigit (some sampleRows) fetchErr).exitCode = 0 ∧
        (mainRun sampleArgsNoDigit (some sampleRows) fetchErr).output =
          (mainRun { sampleArgsNoDigit with useAkshare := false }
            (some sampleRows) fetchErr).output ∧
        MainMsg.warnNoNumericCode ∈
          (mainRun sampleArgsNoDigit (some sampleRows) fetchErr).msgs) :=
  ⟨⟨rfl, by decide⟩,
    claim_C10_symbol_digits sampleSymbol sampleArgsNoDigit sampleRows fetchErr
      rfl (by decide)⟩

/-- C7: `explore_data.py` reads exactly the first file with a `.parquet`
extension from the listing (`head?` of the filtered listing, so no file
when none matches), always prints the file count, prints the no-parquet
message when a non-empty listing has no parquet file, and on a successful
read prints the columns and the last rows of the file it read.  The model
has no write effect, matching the script, which persists nothing. -/
theorem claim_C7_explore (files : List PyStr)
    (readRes : Except Unit ExploreTable) :
    (exploreRun files readRes).readFile =
      (files.filter (fun f => pyEndsWith f parquetExtChars)).head? ∧
      ExploreMsg.foundFiles files.length ∈ (exploreRun files readRes).msgs ∧
      (files ≠ [] →
        files.filter (fun f => pyEndsWith f parquetExtChars) = [] →
        ExploreMsg.noParquetFound ∈ (exploreRun files readRes).msgs) ∧
      (∀ f t,
        (files.filter (fun f => pyEndsWith f parquetExtChars)).head? = some f →
        readRes = Except.ok t →
        ExploreMsg.readingFirst f ∈ (exploreRun files readRes).msgs ∧
        ExploreMsg.printedColumns t.columns ∈ (exploreRun files readRes).msgs ∧
        ExploreMsg.printedTailRows ∈ (exploreRun files readRes).msgs) := by
  unfold exploreRun
  cases files with
  | nil =>
    refine ⟨rfl, List.mem_singleton.mpr rfl, fun h _ => absurd rfl h, ?_⟩
    intro f t hf _
    simp at hf
  | cons g gs =>
    simp only [List.isEmpty_cons, Bool.false_eq_true, if_false]
    cases hfil : (g :: gs).filter (fun f => pyEndsWith f parquetExtChars) with
    | nil =>
      refine ⟨rfl, by simp, fun _ _ => by simp, ?_⟩
      intro f t hf _
      simp at hf
    | cons p ps =>
      cases readRes with
      | ok t0 =>
        refine ⟨rfl, by simp, fun _ hemp => absurd hemp (List.cons_ne_nil p ps), ?_⟩
        intro f t hf ht
        injection ht with ht0
        subst ht0
        injection hf with hf0
        subst hf0
        exact ⟨by simp, by simp, by simp⟩
      | error e =>
        refine ⟨rfl, by simp, fun _ hemp => absurd hemp (List.cons_ne_nil p ps), ?_⟩
        intro f t hf ht
        exact absurd ht (by simp)

theorem claim_C7_witness :
    (exploreRun [sampleParquetFile, sampleTxtFile]
        (Except.ok sampleTable)).readFile = some sampleParquetFile ∧
      ExploreMsg.readingFirst sampleParquetFile ∈
        (exploreRun [sampleParquetFile, sampleTxtFile]
          (Except.ok sampleTable)).msgs ∧
      ExploreMsg.printedColumns sampleTable.columns ∈
        (exploreRun [sampleParquetFile, sampleTxtFile]
          (Except.ok sampleTable)).msgs :=
  ⟨(claim_C7_explore [sampleParquetFile, sampleTxtFile]
      (Except.ok sampleTable)).1.trans (by decide),
    ((claim_C7_explore [sampleParquetFile, sampleTxtFile]
        (Except.ok sampleTable)).2.2.2 sampleParquetFile sampleTable
      (by decide) rfl).1,
    ((claim_C7_explore [sampleParquetFile, sampleTxtFile]
        (Except.ok sampleTable)).2.2.2 sampleParquetFile sampleTable
      (by decide) rfl).2.1⟩

/-- C6 counterexample: the claimed file name disagrees with the code's.
For `--symbol 600869.PARQUET` the code appends a second extension before
case-normalising, producing `600869.parquet.parquet` instead of the
claimed `600869.parquet`; and the code strips surrounding whitespace, so
for `--symbol " 600869 "` it reads `600869.parquet`, not
`" 600869 .parquet"`. -/
theorem claim_C6_cex :
    parquetName sampleUpperSymbol ≠ parquetNameClaimed sampleUpperSymbol ∧
      parquetName sampleUpperSymbol = "600869.parquet.parquet".toList ∧
      parquetNameClaimed sampleUpperSymbol = "600869.parquet".toList ∧
      parquetName sampleSpacedSymbol ≠ parquetNameClaimed sampleSpacedSymbol ∧
      parquetName sampleSpacedSymbol = "600869.parquet".toList := by
  decide

/-- C6 (amended): the script reads exactly `join(D, name)` where `name` is
the trimmed `--symbol` value with `".parquet"` appended unless it already
ends in `".parquet"` (case-sensitively), after which every occurrence of
the substring `".PARQUET"` is replaced by `".parquet"` — so the
replacement is the identity whenever the name contains no `".PARQUET"`
occurrence (an uppercase `".PARQUET"` extension instead yields a doubled
`".parquet.parquet"` suffix, per the counterexample). -/
theorem claim_C6_parquet_path (dataDir s : PyStr)
    (h : ¬ List.IsInfix parquetUpperChars
        (if pyEndsWith (pyStrip s) parquetExtChars then pyStrip s
         else pyStrip s ++ parquetExtChars)) :
    parquetPath dataDir s =
      osPathJoin dataDir
        (if pyEndsWith (pyStrip s) parquetExtChars then pyStrip s
         else pyStrip s ++ parquetExtChars) := by
  simp only [parquetPath, parquetName]
  rw [pyReplace_eq_self h]

theorem claim_C6_witness :
    (¬ List.IsInfix parquetUpperChars
        (if pyEndsWith (pyStrip sampleSymbol) parquetExtChars then
          pyStrip sampleSymbol
         else pyStrip sampleSymbol ++ parquetExtChars)) ∧
      parquetPath sampleDataDir sampleSymbol =
        osPathJoin sampleDataDir
          (if pyEndsWith (pyStrip sampleSymbol) parquetExtChars then
            pyStrip sampleSymbol
           else pyStrip sampleSymbol ++ parquetExtChars) :=
  ⟨by decide, claim_C6_parquet_path sampleDataDir sampleSymbol (by decide)⟩

theorem sortByDate_isSortResult (l : List RawRow) :
    IsSortResult l (sortByDate l) :=
  ⟨sortByDate_perm l, sortByDate_sorted l⟩

/-- C1 counterexample: the code does not guarantee that the latest
(fetched) value survives a duplicated timestamp.  The two single-row
frames below are fixed points of the clean-up, so they are exactly what
lines 141 and 148-150 merge; both orders of the two date-3 rows are
admissible results of the unstable sort on the merged frame (each is a
sorted permutation), yet `drop_duplicates(keep="last")` keeps the fetched
close 33 under one order and the stale local close 30 under the other. -/
theorem claim_C1_cex :
    cleanSeries sampleDupLocal = sampleDupLocal ∧
      cleanSeries sampleDupFetched = sampleDupFetched ∧
      IsSortResult (dropna (sampleDupLocal ++ sampleDupFetched))
        [localRow, fetchedRow] ∧
      IsSortResult (dropna (sampleDupLocal ++ sampleDupFetched))
        [fetchedRow, localRow] ∧
      dropDupKeepLast [localRow, fetchedRow] = [fetchedRow] ∧
      dropDupKeepLast [fetchedRow, localRow] = [localRow] ∧
      localRow.close ≠ fetchedRow.close :=
  ⟨cleanSeries_eval (by decide) (by decide) (by decide),
    cleanSeries_eval (by decide) (by decide) (by decide),
    by decide, by decide, by decide, by decide, by decide⟩

/-- C1 (amended): for every admissible result `S` of the unstable sort of
the merged frame (lines 148-150), the deduplicated result has at most one
row per `date` value, a row for every merged timestamp survives, and every
kept row is one of the merged rows; which duplicate survives a tied
timestamp depends on the sort's implementation-defined tie order, so the
kept value is not guaranteed to be the fetched one (see the
counterexample). -/
theorem claim_C1_merge_dedup (localRaw todayRaw : List RawRow)
    (S : List RawRow)
    (h : IsSortResult (dropna (cleanSeries localRaw ++ cleanSeries todayRaw))
      S) :
    ((dropDupKeepLast S).map RawRow.date).Nodup ∧
      (∀ a ∈ cleanSeries localRaw ++ cleanSeries todayRaw,
        ∃ b ∈ dropDupKeepLast S, b.date = a.date) ∧
      (∀ b ∈ dropDupKeepLast S,
        b ∈ cleanSeries localRaw ++ cleanSeries todayRaw) := by
  have hkeep : ∀ a ∈ cleanSeries localRaw ++ cleanSeries todayRaw,
      rowKeep a = true := by
    intro a ha
    rcases List.mem_append.mp ha with h1 | h1
    · exact mem_cleanSeries_keep h1
    · exact mem_cleanSeries_keep h1
  rw [dropna_eq_self_of_keep hkeep] at h
  refine ⟨dates_nodup_dropDupKeepLast S, ?_, ?_⟩
  · intro a ha
    exact exists_date_dropDupKeepLast (h.1.mem_iff.mpr ha)
  · intro b hb
    exact h.1.mem_iff.mp (mem_of_mem_dropDupKeepLast hb)

theorem claim_C1_witness :
    IsSortResult
        (dropna (cleanSeries sampleRows ++ cleanSeries sampleFetchRows))
        sampleMergedSorted ∧
      (((dropDupKeepLast sampleMergedSorted).map RawRow.date).Nodup ∧
        (∀ a ∈ cleanSeries sampleRows ++ cleanSeries sampleFetchRows,
          ∃ b ∈ dropDupKeepLast sampleMergedSorted, b.date = a.date) ∧
        (∀ b ∈ dropDupKeepLast sampleMergedSorted,
          b ∈ cleanSeries sampleRows ++ cleanSeries sampleFetchRows)) := by
  have hfs : cleanSeries sampleFetchRows = sampleFetchRows :=
    cleanSeries_eval (by decide) (by decide) (by decide)
  have hyp : IsSortResult
      (dropna (cleanSeries sampleRows ++ cleanSeries sampleFetchRows))
      sampleMergedSorted := by
    rw [cleanSeries_sample, hfs]
    decide
  exact ⟨hyp,
    claim_C1_merge_dedup sampleRows sampleFetchRows sampleMergedSorted hyp⟩
